import Mathlib

/-!
Verification development for the LinkedIn scraping repository.

Shallow embedding: the pure computational cores of the repository's
components are translated into Lean definitions, and the frozen claims
about them are settled as theorems.  Browser I/O (Playwright calls) is
modelled by explicit environment records whose fields give the outcome
(`Except`) of each primitive call, mirroring the order in which the
source performs those calls.
-/

namespace LinkedinScraper

/-! ## String helpers shared by several components

These model the Python `str` operations used by the source:
`in` (substring test), `split(sep)`, `strip()`, `rstrip(ch)`, `lower()`.
They operate on `List Char` so every definition is structurally
recursive and kernel-reducible.
-/

/-- `startsWithCL s p` : does `s` start with `p`? (char-exact) -/
def startsWithCL : List Char → List Char → Bool
  | _, [] => true
  | [], _ :: _ => false
  | c :: cs, d :: ds => c = d && startsWithCL cs ds

/-- Python `sub in s` (substring containment). -/
def containsCL (s sub : List Char) : Bool :=
  match s with
  | [] => sub.isEmpty
  | _ :: cs => startsWithCL s sub || containsCL cs sub

/-- First occurrence split: `splitAtSub sep s = some (before, after)`
where `s = before ++ sep ++ after` and `sep` does not occur earlier. -/
def splitAtSub (sep : List Char) : List Char → Option (List Char × List Char)
  | [] => if sep.isEmpty then some ([], []) else none
  | c :: cs =>
    if startsWithCL (c :: cs) sep then some ([], (c :: cs).drop sep.length)
    else match splitAtSub sep cs with
      | some (b, a) => some (c :: b, a)
      | none => none

/-- Fuelled worker for `splitOnCL` (fuel keeps recursion structural;
`s.length` is always enough fuel for a non-empty separator). -/
def splitOnFuel (sep : List Char) : Nat → List Char → List (List Char)
  | 0, s => [s]
  | fuel + 1, s =>
    match splitAtSub sep s with
    | none => [s]
    | some (b, a) => b :: splitOnFuel sep fuel a

/-- Python `s.split(sep)` for a non-empty separator (keeps empty parts). -/
def splitOnCL (sep s : List Char) : List (List Char) :=
  splitOnFuel sep s.length s

/-- Python `s.strip()` : drop leading/trailing whitespace. -/
def pyStrip (s : List Char) : List Char :=
  ((s.dropWhile Char.isWhitespace).reverse.dropWhile Char.isWhitespace).reverse

/-- Python `s.rstrip('/')` : drop all trailing `/` characters. -/
def rstripSlashCL (s : List Char) : List Char :=
  (s.reverse.dropWhile (fun c => c = '/')).reverse

/-- Python `s.lower()` (ASCII case folding, which covers every string the
source compares). -/
def lowerStr (s : String) : String := String.mk (s.data.map Char.toLower)

/-- String-level wrappers. -/
def containsStr (s sub : String) : Bool := containsCL s.data sub.data

def splitOnStr (s sep : String) : List String :=
  (splitOnCL sep.data s.data).map String.mk

def pyStripStr (s : String) : String := String.mk (pyStrip s.data)

/-! ## Date Normalizer — `src/src/utils/date_utils.py`

`DateNormalizer.normalize` tries the ordered format list
`['%b %Y', '%B %Y', '%Y', '%b %d, %Y', '%B %d, %Y']` with
`datetime.strptime` and reformats the first success as `%Y-%m-%d`.
The embedding reproduces CPython's `_strptime` behaviour for these five
formats: month names match case-insensitively, a space in the format
matches one-or-more whitespace characters, `%Y` matches exactly four
digits, `%d` matches the regex `3[01]|[12]\d|0[1-9]|[1-9]` (with
regex backtracking), the whole string must be consumed, and an
out-of-range date (e.g. Feb 30) raises `ValueError`, which the source
catches before trying the next format.  `strftime('%Y-%m-%d')` is
modelled as zero-padded fields. -/

namespace DateUtils

def monthAbbr : List String :=
  ["Jan", "Feb", "Mar", "Apr", "May", "Jun",
   "Jul", "Aug", "Sep", "Oct", "Nov", "Dec"]

def monthFull : List String :=
  ["January", "February", "March", "April", "May", "June", "July",
   "August", "September", "October", "November", "December"]

/-- Strip `pat` from the front of `s`, case-insensitively; return the rest. -/
def stripCaseFold : List Char → List Char → Option (List Char)
  | rest, [] => some rest
  | [], _ :: _ => none
  | c :: cs, d :: ds =>
    if c.toLower = d.toLower then stripCaseFold cs ds else none

/-- Match one of `names` (1-based result) as a case-insensitive prefix. -/
def matchMonthFrom : List String → Nat → List Char → Option (Nat × List Char)
  | [], _, _ => none
  | n :: ns, i, s =>
    match stripCaseFold s n.data with
    | some rest => some (i, rest)
    | none => matchMonthFrom ns (i + 1) s

def matchMonth (names : List String) (s : List Char) : Option (Nat × List Char) :=
  matchMonthFrom names 1 s

/-- `\s+` : require at least one whitespace char, consume the run. -/
def matchWs1 : List Char → Option (List Char)
  | c :: cs => if c.isWhitespace then some (cs.dropWhile Char.isWhitespace) else none
  | [] => none

def digitVal (c : Char) : Nat := c.toNat - 48

/-- `%Y` : exactly four digits. -/
def matchYear4 : List Char → Option (Nat × List Char)
  | a :: b :: c :: d :: rest =>
    if a.isDigit && b.isDigit && c.isDigit && d.isDigit then
      some (digitVal a * 1000 + digitVal b * 100 + digitVal c * 10 + digitVal d, rest)
    else none
  | _ => none

/-- `%d` regex alternatives `3[01] | [12]\d | 0[1-9] | [1-9]`, in regex
order; the caller backtracks through them. -/
def dayAlts (s : List Char) : List (Nat × List Char) :=
  (match s with
   | '3' :: c :: rest =>
     if c = '0' ∨ c = '1' then [(30 + digitVal c, rest)] else []
   | _ => []) ++
  (match s with
   | c :: d :: rest =>
     if (c = '1' ∨ c = '2') ∧ d.isDigit then
       [(digitVal c * 10 + digitVal d, rest)] else []
   | _ => []) ++
  (match s with
   | '0' :: d :: rest =>
     if '1' ≤ d ∧ d ≤ '9' then [(digitVal d, rest)] else []
   | _ => []) ++
  (match s with
   | c :: rest =>
     if '1' ≤ c ∧ c ≤ '9' then [(digitVal c, rest)] else []
   | _ => [])

/-- The five formats of `DateNormalizer._formats`, in source order. -/
inductive Fmt
  | bY   -- '%b %Y'
  | BY   -- '%B %Y'
  | Y    -- '%Y'
  | bdY  -- '%b %d, %Y'
  | BdY  -- '%B %d, %Y'
deriving DecidableEq

def formatsList : List Fmt := [.bY, .BY, .Y, .bdY, .BdY]

/-- Regex match (full consumption) of `"Mon YYYY"`-shaped formats. -/
def runMonthYear (names : List String) (s : List Char) : Option (Nat × Nat × Nat) :=
  match matchMonth names s with
  | none => none
  | some (m, r1) =>
    match matchWs1 r1 with
    | none => none
    | some r2 =>
      match matchYear4 r2 with
      | some (y, []) => some (y, m, 1)
      | _ => none

/-- Regex match of `"Mon D, YYYY"`-shaped formats (backtracks over `%d`). -/
def runMonthDayYear (names : List String) (s : List Char) : Option (Nat × Nat × Nat) :=
  match matchMonth names s with
  | none => none
  | some (m, r1) =>
    match matchWs1 r1 with
    | none => none
    | some r2 =>
      (dayAlts r2).findSome? fun (d, r3) =>
        match r3 with
        | ',' :: r4 =>
          match matchWs1 r4 with
          | none => none
          | some r5 =>
            match matchYear4 r5 with
            | some (y, []) => some (y, m, d)
            | _ => none
        | _ => none

/-- Regex match of the bare `%Y` format (defaults month=1, day=1). -/
def runYearOnly (s : List Char) : Option (Nat × Nat × Nat) :=
  match matchYear4 s with
  | some (y, []) => some (y, 1, 1)
  | _ => none

def runFmt : Fmt → List Char → Option (Nat × Nat × Nat)
  | .bY => runMonthYear monthAbbr
  | .BY => runMonthYear monthFull
  | .Y => runYearOnly
  | .bdY => runMonthDayYear monthAbbr
  | .BdY => runMonthDayYear monthFull

def isLeap (y : Nat) : Bool := (y % 4 = 0 ∧ y % 100 ≠ 0) ∨ y % 400 = 0

def daysInMonth (y m : Nat) : Nat :=
  if m = 2 then (if isLeap y then 29 else 28)
  else if m = 4 ∨ m = 6 ∨ m = 9 ∨ m = 11 then 30
  else 31

/-- `datetime(...)` construction: raises `ValueError` outside these bounds. -/
def validYMD : Nat × Nat × Nat → Bool
  | (y, m, d) => 1 ≤ y ∧ 1 ≤ d ∧ d ≤ daysInMonth y m

/-- One `datetime.strptime(s, fmt)` call: regex match, then date
construction; `none` models the `ValueError` the source catches. -/
def strptimeFmt (f : Fmt) (s : List Char) : Option (Nat × Nat × Nat) :=
  match runFmt f s with
  | some r => if validYMD r then some r else none
  | none => none

/-- The source's `for fmt in self._formats: try ... except ValueError: continue`. -/
def tryFmts : List Fmt → List Char → Option (Nat × Nat × Nat)
  | [], _ => none
  | f :: fs, s =>
    match strptimeFmt f s with
    | some r => some r
    | none => tryFmts fs s

def digitChar (n : Nat) : Char := Char.ofNat (48 + n % 10)

/-- `strftime('%Y-%m-%d')` with zero-padded fields. -/
def formatYMD : Nat × Nat × Nat → String
  | (y, m, d) =>
    String.mk
      [digitChar (y / 1000), digitChar (y / 100), digitChar (y / 10), digitChar y,
       '-', digitChar (m / 10), digitChar m, '-', digitChar (d / 10), digitChar d]

/-- `DateNormalizer.normalize` (`date_utils.py` lines 33-62).
`none` input models Python `None`; the `not date_str` guard makes both
`None` and `""` return `None` before any parsing. -/
def normalize (dateStr : Option String) : Option String :=
  match dateStr with
  | none => none
  | some s =>
    if s.data = [] then none
    else if lowerStr s = "present" then none
    else
      match tryFmts formatsList (pyStrip s.data) with
      | some r => some (formatYMD r)
      | none => none

end DateUtils

/-! ## Structural Extractor — `src/src/extractors/hardcoded_extractor.py`

Browser primitives are abstracted: an `Except` value models whether a
Playwright call raised, and `Option String` models an element lookup
(`none` = element not found / `text_content()` returned `None`).  The
pure span-classification and date-splitting logic is embedded verbatim.
-/

namespace Extractor

/-- The dict initialised at `hardcoded_extractor.py` lines 133-141; all
fields start as `None`. -/
structure ExperienceEntry where
  position_title : Option String
  institution_name : Option String
  duration : Option String
  from_date : Option String
  to_date : Option String
  location : Option String
  description : Option String
deriving DecidableEq

def emptyExperience : ExperienceEntry :=
  ⟨none, none, none, none, none, none, none⟩

/-- One iteration of the `for idx, text in enumerate(exp)` chain
(lines 143-165).  `n` is `len(exp)`.  The duration branch indexes
`dates[1]`, which raises `IndexError` when the first `' · '` segment has
no `' - '`; `Except.error` models that (it aborts the whole method). -/
def stepExp (n : Nat) (cur : ExperienceEntry) (idx : Nat) (text : String) :
    Except Unit ExperienceEntry :=
  if idx = 0 ∧ text ≠ "" then
    .ok { cur with position_title := some text }
  else if idx = 1 ∧ text ≠ "" then
    .ok { cur with institution_name := some text }
  else if containsStr text " - " ∧
      (containsStr text "Present" ∨ containsStr text "mos") then
    match splitOnStr ((splitOnStr text " · ").headD "") " - " with
    | d0 :: d1 :: _ =>
      .ok { cur with duration := some text,
                     from_date := DateUtils.normalize (some d0),
                     to_date := DateUtils.normalize (some d1) }
    | _ => .error ()  -- dates[1] IndexError
  else if containsStr text "·" ∧ (splitOnStr text "·").length > 1 then
    .ok { cur with location := some (pyStripStr ((splitOnStr text "·").headD "")) }
  else if idx = n - 1 ∧ text ≠ "" then
    .ok { cur with description := some text }
  else
    .ok cur

/-- Fold `stepExp` over the enumerated span texts of one position. -/
def processExpAux (n : Nat) (idx : Nat) (cur : ExperienceEntry) :
    List String → Except Unit ExperienceEntry
  | [] => .ok cur
  | t :: ts =>
    match stepExp n cur idx t with
    | .ok cur' => processExpAux n (idx + 1) cur' ts
    | .error e => .error e

/-- Classify one position's span sequence into an `ExperienceEntry`. -/
def processExp (exp : List String) : Except Unit ExperienceEntry :=
  processExpAux exp.length 0 emptyExperience exp

/-- The `for exp in all_spans_text` loop (lines 131-168): entries are
appended in order; a raised error aborts the loop. -/
def processAllExp : List (List String) → Except Unit (List ExperienceEntry)
  | [] => .ok []
  | e :: es =>
    match processExp e with
    | .ok entry =>
      match processAllExp es with
      | .ok rest => .ok (entry :: rest)
      | .error err => .error err
    | .error err => .error err

/-- `extract_experience` (lines 110-177): `spansEnv` is the outcome of
the page/locator calls that produce `all_spans_text`; any exception is
caught by the method's `except` and yields `[]`. -/
def extract_experience (spansEnv : Except Unit (List (List String))) :
    List ExperienceEntry :=
  match spansEnv with
  | .error _ => []
  | .ok spans =>
    match processAllExp spans with
    | .ok entries => entries
    | .error _ => []

/-- `extract_name` / `extract_title` / `extract_location` (lines 45-108)
share one shape: `wait_for_selector`, `None` check, `text_content`,
strip, with every exception caught and `""` returned.  The environment
is the outcome of that lookup: `Except.error` = a raised browser or
timeout error; `ok none` = element `None`; `ok (some none)` = element
found but `text_content()` returned `None`; `ok (some (some t))` = text. -/
def extractSingleText (env : Except Unit (Option (Option String))) : String :=
  match env with
  | .error _ => ""
  | .ok none => ""
  | .ok (some none) => ""
  | .ok (some (some t)) => pyStripStr t

def extract_name (env : Except Unit (Option (Option String))) : String :=
  extractSingleText env

def extract_title (env : Except Unit (Option (Option String))) : String :=
  extractSingleText env

def extract_location (env : Except Unit (Option (Option String))) : String :=
  extractSingleText env

/-- `extract_about` (lines 281-308): reads the about node's text
(after an optional see-more expansion, which only changes which node is
read); exceptions degrade to `""`, `None` text degrades to `""`. -/
def extract_about (env : Except Unit (Option String)) : String :=
  match env with
  | .error _ => ""
  | .ok none => ""
  | .ok (some t) => pyStripStr t

end Extractor

/-! ## Link Discovery — `src/src/scraper/linkedin_profile_link_scraper.py`

`_clean_profile_url` calls `urllib.parse.urlparse` and `urljoin`.  The
embedding models `urlparse` for URLs without `;`-parameters: the scheme
is split at the first `"://"`, recognized only when it validates as
CPython does (first character an ASCII letter, the rest letters, digits
or `+ - .`) and then LOWERCASED, as `urlsplit` lowercases
unconditionally; the netloc runs to the first of `/ ? #`, the fragment
is everything after the first `#` of the remainder, and the query
everything after the first `?` before it.
`urljoin(scheme://netloc, path)` is modelled for dot-segment-free
paths: empty path yields the base, otherwise the path (with a `/`
inserted if missing) is appended.  The theorems about these functions
are stated over well-formed rendered URLs (non-empty valid scheme,
delimiter-free netloc, absolute dot-free path), where the model
provably coincides with the library. -/

namespace LinkScraper

structure ParsedUrl where
  scheme : String
  netloc : String
  path : String
  query : String
  fragment : String
deriving DecidableEq

def netlocDelim (c : Char) : Bool := c = '/' ∨ c = '?' ∨ c = '#'

/-- Scheme split at the first `"://"` (`[':', '/', '/']` as characters). -/
def schemeSplit (u : List Char) : List Char × List Char :=
  match splitAtSub [':', '/', '/'] u with
  | some (s, r) => (s, r)
  | none => ([], u)

/-- One character of urllib `scheme_chars`: ASCII letters, digits and
`+ - .`. -/
def schemeChar (c : Char) : Bool :=
  ('a' ≤ c ∧ c ≤ 'z') ∨ ('A' ≤ c ∧ c ≤ 'Z') ∨ ('0' ≤ c ∧ c ≤ '9') ∨
  c = '+' ∨ c = '-' ∨ c = '.'

/-- CPython scheme validation in `urlsplit`: non-empty, first character
an ASCII letter, every character in `scheme_chars`; only such a prefix
before the colon is read as a scheme (and then lowercased). -/
def schemeValid (s : List Char) : Bool :=
  (match s.head? with
   | some c => ('a' ≤ c ∧ c ≤ 'z') ∨ ('A' ≤ c ∧ c ≤ 'Z')
   | none => false) &&
  s.all schemeChar

/-- Fragment split at the first `'#'`. -/
def fragSplit (l : List Char) : List Char × List Char :=
  match splitAtSub ['#'] l with
  | some (p, f) => (p, f)
  | none => (l, [])

/-- Query split at the first `'?'` (applied after the fragment split,
as the library does). -/
def querySplit (l : List Char) : List Char × List Char :=
  match splitAtSub ['?'] l with
  | some (p, q) => (p, q)
  | none => (l, [])

/-- Model of `urllib.parse.urlparse` (see the namespace comment).
A scheme is recognized only when it validates, and is lowercased as
the library does; on an invalid scheme the input is left whole, as
`urlsplit` leaves `url` untouched when the prefix fails validation. -/
def urlparse (u : String) : ParsedUrl :=
  let sr := schemeSplit u.data
  let scheme := if schemeValid sr.1 then sr.1.map Char.toLower else []
  let rest := if schemeValid sr.1 then sr.2 else u.data
  let netloc := rest.takeWhile (fun c => !netlocDelim c)
  let rest2 := rest.drop netloc.length
  let pf := fragSplit rest2
  let pq := querySplit pf.1
  ⟨String.mk scheme, String.mk netloc, String.mk pq.1,
   String.mk pq.2, String.mk pf.2⟩

/-- Model of `urljoin(f"{scheme}://{netloc}", path)` for a base with no
path and a dot-segment-free relative path. -/
def urljoinBase (base : String) (p : String) : String :=
  match p.data with
  | [] => base
  | '/' :: _ => base ++ p
  | _ => base ++ "/" ++ p

/-- `_clean_profile_url` (lines 22-40).  In the model `urlparse` and
`urljoin` are total, so the `except` branch (return `url` unchanged) is
never taken. -/
def _clean_profile_url (u : String) : String :=
  let pu := urlparse u
  urljoinBase (pu.scheme ++ "://" ++ pu.netloc) (String.mk (rstripSlashCL pu.path.data))

/-- Python-set insertion, modelled as append-if-absent (the returned
list order stands in for the set's arbitrary order). -/
def setInsert (acc : List String) (x : String) : List String :=
  if x ∈ acc then acc else acc ++ [x]

def setUpdate (acc : List String) (xs : List String) : List String :=
  xs.foldl setInsert acc

/-- The per-page filter of `get_profile_links_from_search`
(lines 76-82): drop insight links, keep profile-shaped URLs, drop the
canned-search marker, then clean. -/
def searchFilterPage (links insights : List String) : List String :=
  (links.filter (fun l =>
      l ∉ insights ∧
      containsStr l "linkedin.com/in/" ∧
      ¬ containsStr l "SHARED_CONNECTIONS_CANNED_SEARCH")).map _clean_profile_url

/-- `get_profile_links_from_search` (lines 42-98), with navigation
abstracted to the list of `(links, insights_links)` pairs observed on
the pages actually visited.  Cleaned links accumulate in the
`profile_links` set across pages. -/
def get_profile_links_from_search (pages : List (List String × List String)) :
    List String :=
  pages.foldl (fun acc p => setUpdate acc (searchFilterPage p.1 p.2)) []

/-- A connection card as returned by the evaluate-script call
(lines 130-136): each field may be `None`. -/
structure ConnCard where
  name : Option String
  occupation : Option String
  url : Option String
deriving DecidableEq

/-- One entry of the `connections` result (lines 142-146).  `rawUrl` is
verification instrumentation recording which raw `card['url']` produced
the entry; the Python dict stores only `name`, `occupation` and the
cleaned `url`. -/
structure ConnEntry where
  name : Option String
  occupation : Option String
  rawUrl : String
  url : String
deriving DecidableEq

/-- Python truthiness of `card['url']`. -/
def urlTruthy : Option String → Bool
  | none => false
  | some s => !s.data.isEmpty

/-- The `for card in cards` body (lines 139-146): dedup on the RAW url,
then append the entry with the CLEANED url. -/
def connStep (st : List String × List ConnEntry) (card : ConnCard) :
    List String × List ConnEntry :=
  match card.url with
  | some u =>
    if u.data ≠ [] ∧ u ∉ st.1 then
      (st.1 ++ [u], st.2 ++ [⟨card.name, card.occupation, u, _clean_profile_url u⟩])
    else st
  | none => st

def processCards (cards : List ConnCard)
    (st : List String × List ConnEntry) : List String × List ConnEntry :=
  cards.foldl connStep st

/-- `if max_results and len(connections) >= max_results` (line 149):
`max_results = None` and `max_results = 0` are both falsy. -/
def capReached (maxResults : Option Nat) (len : Nat) : Bool :=
  match maxResults with
  | none => false
  | some m => m ≠ 0 ∧ m ≤ len

/-- The `while True` loop of `get_profile_links_from_connections`
(lines 128-161): each round is the card snapshot produced by one
evaluate-script call; exhausting the rounds models the
no-height-increase break. -/
def connLoop (maxResults : Option Nat) :
    List (List ConnCard) → List String × List ConnEntry → List ConnEntry
  | [], st => st.2
  | r :: rs, st =>
    let st' := processCards r st
    if capReached maxResults st'.2.length then
      st'.2.take (maxResults.getD 0)
    else connLoop maxResults rs st'

/-- `get_profile_links_from_connections` (lines 105-168). -/
def get_profile_links_from_connections (rounds : List (List ConnCard))
    (maxResults : Option Nat) : List ConnEntry :=
  connLoop maxResults rounds ([], [])

/-! Generator of well-formed absolute URLs, used to state the
canonicalization theorems: on the rendered form of such parts the
`urlparse`/`urljoin` model provably coincides with the Python library. -/

/-- Invariant of the connections fold: the seen-set is exactly the raw
URLs of the accumulated entries, without duplicates, and every entry's
`url` is the cleaning of its raw URL. -/
def ConnInv (st : List String × List ConnEntry) : Prop :=
  st.1 = st.2.map (fun e => e.rawUrl) ∧ st.1.Nodup ∧
  ∀ e ∈ st.2, e.url = _clean_profile_url e.rawUrl

end LinkScraper

/-! ## Education extraction — `hardcoded_extractor.py` lines 183-279

Each list item is modelled by the results of the fixed selector walk
the source performs on it.  A *slot* `Option (Option String)` is a
`query_selector("span")` result together with that element's
`text_content()`: `none` = no element, `some none` = element whose text
is `None` (on which the source calls `.strip()` and raises),
`some (some t)` = text `t`. -/

namespace Education

/-- A child of `position_details` ("> *", line 204).  `first_desc` is
its `query_selector("*")` result together with the children span-slots
of that container (lines 209-210); `span_slot` is its
`query_selector("span")` text slot (lines 249-257; the see-more branch
reads a span the same way, after a click and wait that do not change
the shape of the read). -/
structure PosNode where
  first_desc : Option (List (Option (Option String)))
  span_slot : Option (Option String)
deriving DecidableEq

/-- The `profile-component-entity` node of one list item. -/
structure EduEntity where
  /-- `len(details)` for `details = position.query_selector_all("> *")`
  (line 196); the tuple unpack at line 197 needs exactly 2. -/
  details_len : Nat
  /-- logo child's `query_selector("*")` and its `get_attribute("href")`
  (lines 200-201). -/
  url_elem : Option (Option String)
  /-- `position_details.query_selector_all("> *")` (line 204). -/
  pos_list : List PosNode
deriving DecidableEq

/-- One `.pvs-list__paged-list-item`: its
`query_selector("div[data-view-name='profile-component-entity']")`
result (line 195), `none` when the selector finds nothing. -/
structure EduItem where
  entity : Option EduEntity
deriving DecidableEq

structure EduEntry where
  from_date : Option String
  to_date : Option String
  description : String
  degree : Option String
  institution_name : String
  linkedin_url : Option String
deriving DecidableEq

/-- Read a span slot as the source does at lines 213-215 (`""` when the
element is absent, fault when its text is `None`). -/
def readNameSlot : Option (Option (Option String)) → Except String String
  | none => .ok ""                   -- outer_positions empty: name_elem None
  | some none => .ok ""              -- no span element
  | some (some none) => .error "AttributeError: NoneType.strip"
  | some (some (some t)) => .ok (pyStripStr t)

/-- Python `list.index` as an option (first match). -/
def idxOfStr : List String → String → Option Nat
  | [], _ => none
  | x :: xs, y => if x = y then some 0 else (idxOfStr xs y).map (· + 1)

/-- The date-range split of lines 233-240.  `times.split(" ")`; more
than 3 tokens locate the `"-"` token (`list.index` raises `ValueError`
when absent; Python's `parts[idx-1]` with `idx = 0` is `parts[-1]`,
the last token); otherwise first/last tokens. -/
def splitTimes (times : String) : Except String (Option String × Option String) :=
  if times.data = [] then .ok (none, none)
  else
    let parts := splitOnStr times " "
    if parts.length > 3 then
      match idxOfStr parts "-" with
      | none => .error "ValueError: - is not in list"
      | some idx =>
        let fromTok := if idx = 0 then parts.getLastD "" else parts.getD (idx - 1) ""
        .ok (DateUtils.normalize (some fromTok),
             DateUtils.normalize (some (parts.getLastD "")))
    else
      .ok (DateUtils.normalize (some (parts.headD "")),
           DateUtils.normalize (some (parts.getLastD "")))

/-- The per-item body of the `for position in ...` loop
(lines 195-270).  `Except.error` models an exception raised inside the
body, which the method-level `except` turns into `return []`. -/
def processEduItem (it : EduItem) : Except String EduEntry := do
  match it.entity with
  | none => .error "AttributeError: NoneType.query_selector_all"  -- line 196
  | some ent =>
    if ent.details_len ≠ 2 then
      .error "ValueError: unpack"                                  -- line 197
    else
      let url := match ent.url_elem with
        | none => none
        | some href => href
      match ent.pos_list.head? with
      | none => .error "AttributeError: NoneType.query_selector"   -- line 209
      | some summary =>
        let outer := summary.first_desc.getD []
        let instName ← readNameSlot outer.head?
        -- degree (lines 218-223): only read when a second outer position exists
        let degree ← if outer.length > 1 then
            match outer.getD 1 none with
            | none => pure (none : Option String)
            | some none => Except.error "AttributeError: NoneType.strip"
            | some (some t) => pure (some (pyStripStr t))
          else pure none
        -- dates (lines 226-240)
        let dates ← if outer.length > 2 then
            match outer.getD 2 none with
            | none => pure ((none : Option String), (none : Option String))
            | some none => Except.error "AttributeError: NoneType.strip"
            | some (some t) => splitTimes (pyStripStr t)
          else pure (none, none)
        -- description (lines 243-257): second child of position_details
        let description ← if ent.pos_list.length > 1 then
            match (ent.pos_list.getD 1 ⟨none, none⟩).span_slot with
            | none => pure ""
            | some none => Except.error "AttributeError: NoneType.strip"
            | some (some t) => pure (pyStripStr t)
          else pure ""
        pure ⟨dates.1, dates.2, description, degree, instName, url⟩

/-- The loop with the method-level `try`/`except` (lines 186-276): the
first per-item fault discards everything and yields `[]`. -/
def eduLoop : List EduItem → List EduEntry → List EduEntry
  | [], acc => acc
  | it :: rest, acc =>
    match processEduItem it with
    | .ok e => eduLoop rest (acc ++ [e])
    | .error _ => []

/-- `extract_education` over the parsed list items (`query_selector_all`
at line 194 abstracted to the item list). -/
def extract_education (items : List EduItem) : List EduEntry :=
  eduLoop items []

def eduDefault : EduEntry := ⟨none, none, "", none, "", none⟩

/-- The entry each item would contribute, when its processing is fault
free. -/
def eduOkMap (items : List EduItem) : List EduEntry :=
  items.map (fun it => ((processEduItem it).toOption).getD eduDefault)

end Education

/-! ## Session Controller — `src/src/session/playwright_linkedin_session.py`

Each browser primitive's outcome is a field of `LoginEnv`/`CloseEnv`
(`Except.error` = the call raised).  `PyResult` distinguishes a method
returning a value from propagating an exception. -/

namespace Session

inductive PyResult (α : Type)
  | returns (a : α)
  | raises (e : String)
deriving DecidableEq

structure SessionSt where
  is_logged_in : Bool
deriving DecidableEq

structure LoginEnv where
  navFeed : Except String Unit          -- navigate_to('https://www.linkedin.com/feed')
  currentUrl : Except String String     -- get_current_url()
  navLogin : Except String Unit         -- navigate_to('https://www.linkedin.com/login')
  fillUser : Except String Unit         -- fill_input(USERNAME_INPUT, username)
  fillPass : Except String Unit         -- fill_input(PASSWORD_INPUT, password)
  clickLogin : Except String Unit       -- click_element(LOGIN_BUTTON)
  waitNav : Except String Unit          -- wait_for_navigation()
  loggedInVisible : Except String Bool  -- is_element_visible(LOGGED_IN_INDICATOR)
  saveStorage : Except String Unit      -- save_storage_state()

/-- `validate_session` (lines 74-83): catches its own exceptions and
returns `False` without touching the flag. -/
def validate_session (env : LoginEnv) (st : SessionSt) : SessionSt × Bool :=
  match env.loggedInVisible with
  | .ok b => ({ is_logged_in := b }, b)
  | .error _ => (st, false)

/-- The body of `login`'s `try` block (lines 41-68); an `Except.error`
result is an exception reaching the method's `except` handler. -/
def loginBody (env : LoginEnv) (st : SessionSt) : SessionSt × Except String Bool :=
  match env.navFeed with
  | .error e => (st, .error e)
  | .ok _ =>
    match env.currentUrl with
    | .error e => (st, .error e)
    | .ok url =>
      if containsStr url "linkedin.com/feed" then
        ({ is_logged_in := true }, .ok true)
      else
        match env.navLogin with
        | .error e => (st, .error e)
        | .ok _ =>
          match env.fillUser with
          | .error e => (st, .error e)
          | .ok _ =>
            match env.fillPass with
            | .error e => (st, .error e)
            | .ok _ =>
              match env.clickLogin with
              | .error e => (st, .error e)
              | .ok _ =>
                match env.waitNav with
                | .error e => (st, .error e)
                | .ok _ =>
                  let (st', isValid) := validate_session env st
                  if isValid then
                    match env.saveStorage with
                    | .error e => (st', .error e)
                    | .ok _ => ({ is_logged_in := true }, .ok true)
                  else (st', .ok false)

/-- `login` (lines 39-72): `except Exception` catches every exception
raised in the body and returns `False`. -/
def login (env : LoginEnv) (st : SessionSt) : SessionSt × PyResult Bool :=
  match loginBody env st with
  | (st', .ok b) => (st', .returns b)
  | (st', .error _) => (st', .returns false)

structure CloseEnv where
  closeBrowser : Except String Unit     -- close_browser()

/-- `close` (lines 34-37): no `try`, so a `close_browser` exception
propagates and the flag assignment is skipped. -/
def close (env : CloseEnv) (st : SessionSt) : SessionSt × PyResult Unit :=
  match env.closeBrowser with
  | .ok _ => ({ is_logged_in := false }, .returns ())
  | .error e => (st, .raises e)

/-- `is_logged_in` (lines 93-95). -/
def is_logged_in (st : SessionSt) : Bool := st.is_logged_in

end Session

/-! ## Traffic Shaper — `src/src/utils/simple_rate_limiter.py`

Simulated-clock embedding: `now` is the value of `time.time()` in
whole seconds, and `asyncio.sleep(d)` advances it by exactly `d`.
In the source all delay magnitudes are configured to zero
(`_burst_min_delay = _burst_max_delay = _break_min_delay =
_break_max_delay = 0`, lines 47-52), so `_get_delay` always returns
`0.0` (`random.uniform(0, 0) = 0` and `0 * jitter = 0`) and the
`await asyncio.sleep(delay)` at line 140 does not advance the clock.
The one remaining random input, `random.randint(3, 5)` for the next
burst size, is threaded in as the `draw` argument.

`acquire` (lines 117-150) can raise exactly one internal exception in
this model: `min([])` at line 124 when `max_requests = 0`; the
method-level `except` then sleeps `_burst_max_delay = 0` and returns
without recording a request or saving state. -/

namespace RateLimiter

def window : Nat := 24 * 60 * 60

/-- The dict written by `_save_state` (lines 84-88): note it has no
entry for `_burst_size`. -/
structure SavedState where
  requests : List Nat
  last_burst_time : Nat
  current_burst : Nat
deriving DecidableEq

structure RLState where
  max_requests : Nat
  requests : List Nat
  burst_size : Nat
  current_burst : Nat
  last_burst_time : Nat
  /-- simulated `time.time()` -/
  now : Nat
  /-- contents of `logs/rate_limiter_state.json` -/
  savedFile : Option SavedState
deriving DecidableEq

/-- `_clean_old_requests` (lines 94-97): keep `ts` with
`now - ts < 24*60*60` (truncated subtraction agrees with the float
subtraction for past timestamps, and both keep any `ts ≥ now`). -/
def cleanOld (now : Nat) (reqs : List Nat) : List Nat :=
  reqs.filter (fun ts => decide (now - ts < window))

/-- Python `min` on a list (callers guarantee non-emptiness; the empty
case is the `ValueError` path, handled at the call site). -/
def listMin : List Nat → Nat
  | [] => 0
  | h :: t => t.foldl Nat.min h

/-- The daily-limit wait (lines 123-129): returns the simulated time
and request list after the (possible) blocking sleep and re-clean. -/
def afterWait (st : RLState) (reqs1 : List Nat) : Nat × List Nat :=
  if st.max_requests ≤ reqs1.length then
    let oldest := listMin reqs1
    let waitTime := oldest + window - st.now
    if 0 < waitTime then
      (st.now + waitTime, cleanOld (st.now + waitTime) reqs1)
    else (st.now, reqs1)
  else (st.now, reqs1)

/-- `_get_delay`'s burst bookkeeping (lines 104-107): (new burst
counter before the increment, new burst target).  The delay value the
function returns is `0` (zeroed configuration). -/
def burstBook (st : RLState) (reqs2 : List Nat) (draw : Nat) : Nat × Nat :=
  if reqs2 = [] ∨ st.burst_size ≤ st.current_burst then (0, draw)
  else (st.current_burst, st.burst_size)

/-- `acquire` for one `draw` of `random.randint(3, 5)`.  Returns the
new state together with the timestamp appended to `_requests`
(`none` on the `ValueError` path, where nothing is recorded). -/
def acquireE (draw : Nat) (st : RLState) : RLState × Option Nat :=
  let reqs1 := cleanOld st.now st.requests
  if st.max_requests ≤ reqs1.length ∧ reqs1 = [] then
    -- line 124: min([]) raises; except at 148-150 sleeps 0 and returns
    ({ st with requests := reqs1 }, none)
  else
    let nr := afterWait st reqs1
    let cb := (burstBook st nr.2 draw).1
    let bs := (burstBook st nr.2 draw).2
    -- lines 143-146: append the request at the current (simulated) time
    let t := nr.1
    let reqs3 := nr.2 ++ [t]
    ({ st with requests := reqs3, burst_size := bs, current_burst := cb + 1,
               last_burst_time := t, now := t,
               savedFile := some ⟨reqs3, t, cb + 1⟩ },
     some t)

def acquire (draw : Nat) (st : RLState) : RLState := (acquireE draw st).1

/-- Time passing between `acquire` calls. -/
def tick (d : Nat) (st : RLState) : RLState := { st with now := st.now + d }

/-- The constructor (lines 17-64) with no pre-existing state file:
`_requests = []`, `_current_burst = 0`, `_last_burst_time = 0`,
`_burst_size = randint(3,5) = draw0`. -/
def initState (maxRequests draw0 startTime : Nat) : RLState :=
  ⟨maxRequests, [], draw0, 0, 0, startTime, none⟩

/-- A scheduled call: let `idle` seconds pass, then `acquire` with
burst-size draw `draw`. -/
structure Step where
  idle : Nat
  draw : Nat

/-- Run a sequence of calls, collecting every recorded timestamp. -/
def runHist : RLState → List Nat → List Step → RLState × List Nat
  | st, hist, [] => (st, hist)
  | st, hist, s :: rest =>
    let (st', app) := acquireE s.draw (tick s.idle st)
    runHist st' (hist ++ app.toList) rest

/-- Number of recorded timestamps inside the rolling window `(t - 24h, t]`. -/
def windowCount (hist : List Nat) (t : Nat) : Nat :=
  (hist.filter (fun h => decide (h ≤ t ∧ t - h < window))).length

/-- The inductive invariant used for the quota proof: all recorded
timestamps are in the past, `_requests` is within quota, the in-window
part of the history survives inside `_requests` (cleaning only removes
out-of-window entries), and every rolling window of the history is
within quota. -/
def Inv (st : RLState) (hist : List Nat) : Prop :=
  (∀ h ∈ hist, h ≤ st.now) ∧
  st.requests.length ≤ st.max_requests ∧
  List.Sublist (hist.filter (fun h => decide (st.now - h < window))) st.requests ∧
  (∀ t, windowCount hist t ≤ st.max_requests)

end RateLimiter

end LinkedinScraper

namespace LinkedinScraper

/-! ## Proofs

General list lemmas used by several component proofs, then the
per-component lemmas, then the claim theorems. -/

/-- `l.filter p` shrinks strictly when some member fails `p`. -/
theorem length_filter_lt {α : Type} (p : α → Bool) {l : List α} {a : α}
    (ha : a ∈ l) (hpa : p a = false) : (l.filter p).length < l.length := by
  induction l with
  | nil => cases ha
  | cons b t ih =>
    rcases List.mem_cons.mp ha with rfl | hmem
    · simp only [List.filter_cons, hpa]
      exact Nat.lt_succ_of_le (List.length_filter_le _ _)
    · by_cases hb : p b
      · simpa [List.filter_cons, hb] using ih hmem
      · simp only [Bool.not_eq_true] at hb
        simp only [List.filter_cons, hb]
        exact Nat.lt_succ_of_lt (ih hmem)

/-- Filtering by a stronger predicate factors through a weaker one. -/
theorem filter_factor {α : Type} {p q : α → Bool}
    (himp : ∀ a, p a = true → q a = true) (l : List α) :
    l.filter p = (l.filter q).filter p := by
  induction l with
  | nil => rfl
  | cons b t ih =>
    by_cases hp : p b
    · have hq := himp b hp
      simp [List.filter_cons, hp, hq, ih]
    · simp only [Bool.not_eq_true] at hp
      by_cases hq : q b
      · simp [List.filter_cons, hp, hq, ih]
      · simp only [Bool.not_eq_true] at hq
        simp [List.filter_cons, hp, hq, ih]

/-- Length-monotonicity of `filter` along a pointwise implication. -/
theorem length_filter_mono {α : Type} {p q : α → Bool} {l : List α}
    (himp : ∀ a ∈ l, p a = true → q a = true) :
    (l.filter p).length ≤ (l.filter q).length := by
  induction l with
  | nil => simp
  | cons b t ih =>
    have iht : (t.filter p).length ≤ (t.filter q).length :=
      ih (fun a ha => himp a (List.mem_cons_of_mem _ ha))
    by_cases hp : p b
    · have hq := himp b (List.mem_cons_self _ _) hp
      simpa [List.filter_cons, hp, hq] using iht
    · simp only [Bool.not_eq_true] at hp
      by_cases hq : q b
      · simp only [List.filter_cons, hp, hq, cond_true, cond_false]
        exact Nat.le_succ_of_le iht
      · simp only [Bool.not_eq_true] at hq
        simpa [List.filter_cons, hp, hq] using iht

namespace RateLimiter

theorem listMin_mem : ∀ {l : List Nat}, l ≠ [] → listMin l ∈ l := by
  intro l hl
  match l with
  | h :: t =>
    suffices hgen : ∀ (t : List Nat) (a : Nat),
        t.foldl Nat.min a = a ∨ t.foldl Nat.min a ∈ t by
      rcases hgen t h with heq | hmem
      · simp [listMin, heq]
      · simp [listMin, hmem]
    intro t
    induction t with
    | nil => intro a; left; rfl
    | cons b t ih =>
      intro a
      rcases ih (Nat.min a b) with heq | hmem
      · by_cases hab : a ≤ b
        · left; simp only [List.foldl_cons, heq]; simp [Nat.min_def, hab]
        · right; simp only [List.foldl_cons, heq]
          simp [Nat.min_def, hab]
      · right; exact List.mem_cons_of_mem _ hmem

theorem mem_cleanOld {n x : Nat} {l : List Nat} (hx : x ∈ cleanOld n l) :
    n - x < window ∧ x ∈ l := by
  have := List.mem_filter.mp hx
  exact ⟨by simpa using this.2, this.1⟩

theorem Inv_init (m d s : Nat) : Inv (initState m d s) [] := by
  refine ⟨?_, ?_, ?_, ?_⟩ <;> simp [initState, windowCount, Inv]

theorem Inv_tick {st : RLState} {hist : List Nat} (d : Nat) (h : Inv st hist) :
    Inv (tick d st) hist := by
  obtain ⟨h1, h2, h3, h4⟩ := h
  refine ⟨?_, h2, ?_, h4⟩
  · intro x hx; have := h1 x hx; simp only [tick]; omega
  · have hfac : hist.filter (fun h => decide (st.now + d - h < window)) =
        (hist.filter (fun h => decide (st.now - h < window))).filter
          (fun h => decide (st.now + d - h < window)) := by
      apply filter_factor
      intro a ha
      simp only [decide_eq_true_eq] at ha ⊢
      omega
    show List.Sublist
      (hist.filter (fun h => decide ((tick d st).now - h < window)))
      (tick d st).requests
    simp only [tick]
    rw [hfac]
    exact (List.filter_sublist _).trans h3

theorem afterWait_wait {st : RLState} {reqs1 : List Nat}
    (hc : st.max_requests ≤ reqs1.length)
    (hcl : reqs1 = cleanOld st.now st.requests) (hne : reqs1 ≠ []) :
    afterWait st reqs1 =
      (listMin reqs1 + window, cleanOld (listMin reqs1 + window) reqs1) := by
  have hmem : listMin reqs1 ∈ reqs1 := listMin_mem hne
  have hmem2 : listMin reqs1 ∈ cleanOld st.now st.requests := by
    rw [← hcl]; exact hmem
  have hmc := mem_cleanOld hmem2
  have hwt : 0 < listMin reqs1 + window - st.now := by
    have := hmc.1; omega
  have hn2 : st.now + (listMin reqs1 + window - st.now) = listMin reqs1 + window := by
    omega
  simp only [afterWait, if_pos hc, if_pos hwt, hn2]

theorem afterWait_nowait {st : RLState} {reqs1 : List Nat}
    (hc : reqs1.length < st.max_requests) :
    afterWait st reqs1 = (st.now, reqs1) := by
  simp only [afterWait, if_neg (by omega : ¬ st.max_requests ≤ reqs1.length)]

theorem Inv_acquire {st : RLState} {hist : List Nat} (d : Nat) (h : Inv st hist) :
    Inv (acquireE d st).1 (hist ++ (acquireE d st).2.toList) := by
  obtain ⟨h1, h2, h3, h4⟩ := h
  have hwinpos : 0 < window := by decide
  have hreq1len : (cleanOld st.now st.requests).length ≤ st.max_requests :=
    le_trans (List.length_filter_le _ _) h2
  have hB : List.Sublist
      (hist.filter (fun h => decide (st.now - h < window)))
      (cleanOld st.now st.requests) := by
    have hidem : hist.filter (fun h => decide (st.now - h < window)) =
        (hist.filter (fun h => decide (st.now - h < window))).filter
          (fun h => decide (st.now - h < window)) :=
      filter_factor (fun a ha => ha) _
    rw [hidem]
    exact h3.filter _
  by_cases hexc : st.max_requests ≤ (cleanOld st.now st.requests).length ∧
      cleanOld st.now st.requests = []
  · -- ValueError path: nothing recorded
    simp only [acquireE, if_pos hexc, Option.toList_none, List.append_nil]
    refine ⟨h1, ?_, ?_, h4⟩
    · simp only [hexc.2]
      exact Nat.zero_le _
    · simpa [hexc.2] using hB
  · -- normal path
    obtain ⟨n2, reqs2, hnr, hge, hF, hG⟩ :
        ∃ n2 reqs2, afterWait st (cleanOld st.now st.requests) = (n2, reqs2) ∧
          st.now ≤ n2 ∧ reqs2.length + 1 ≤ st.max_requests ∧
          List.Sublist (hist.filter (fun h => decide (n2 - h < window))) reqs2 := by
      by_cases hc : st.max_requests ≤ (cleanOld st.now st.requests).length
      · have hne : cleanOld st.now st.requests ≠ [] := fun habs => hexc ⟨hc, habs⟩
        set reqs1 := cleanOld st.now st.requests with hreqs1
        have hmem : listMin reqs1 ∈ reqs1 := listMin_mem hne
        have hmem2 : listMin reqs1 ∈ cleanOld st.now st.requests := by
          rw [← hreqs1]; exact hmem
        have hmc := mem_cleanOld hmem2
        refine ⟨listMin reqs1 + window, cleanOld (listMin reqs1 + window) reqs1,
          afterWait_wait hc hreqs1 hne, by have := hmc.1; omega, ?_, ?_⟩
        · have hdrop : (fun ts => decide (listMin reqs1 + window - ts < window))
              (listMin reqs1) = false := by
            simp only [decide_eq_false_iff_not, not_lt]
            omega
          have hlt := length_filter_lt
            (fun ts => decide (listMin reqs1 + window - ts < window)) hmem hdrop
          unfold cleanOld
          omega
        · have hfac : hist.filter (fun h => decide (listMin reqs1 + window - h < window)) =
              (hist.filter (fun h => decide (st.now - h < window))).filter
                (fun h => decide (listMin reqs1 + window - h < window)) := by
            apply filter_factor
            intro a ha
            simp only [decide_eq_true_eq] at ha ⊢
            omega
          rw [hfac]
          exact hB.filter _
      · push_neg at hc
        exact ⟨st.now, cleanOld st.now st.requests, afterWait_nowait hc,
          le_refl _, by omega, hB⟩
    have hH : ∀ h ∈ hist, h ≤ n2 := fun x hx => le_trans (h1 x hx) hge
    simp only [acquireE, if_neg hexc, hnr]
    refine ⟨?_, ?_, ?_, ?_⟩
    · intro x hx
      show x ≤ n2
      rcases List.mem_append.mp hx with hx | hx
      · exact hH x hx
      · simp only [Option.toList_some, List.mem_singleton] at hx
        omega
    · simpa using hF
    · show List.Sublist
        ((hist ++ [n2]).filter (fun h => decide (n2 - h < window)))
        (reqs2 ++ [n2])
      rw [List.filter_append]
      have hn2self : ([n2].filter fun h => decide (n2 - h < window)) = [n2] := by
        simp only [List.filter_cons, List.filter_nil]
        rw [decide_eq_true (by omega : n2 - n2 < window)]
        rfl
      rw [hn2self]
      exact hG.append (List.Sublist.refl _)
    · intro t
      show windowCount (hist ++ [n2]) t ≤ st.max_requests
      unfold windowCount
      rw [List.filter_append, List.length_append]
      by_cases hc : n2 ≤ t ∧ t - n2 < window
      · have hcount : (hist.filter fun h => decide (h ≤ t ∧ t - h < window)).length ≤
            (hist.filter fun h => decide (n2 - h < window)).length := by
          apply length_filter_mono
          intro a ha hp
          simp only [decide_eq_true_eq] at hp ⊢
          have := hH a ha
          omega
        have hsub := hG.length_le
        have hone : (([n2] : List Nat).filter
            fun h => decide (h ≤ t ∧ t - h < window)).length ≤ 1 :=
          List.length_filter_le _ _
        omega
      · have hzero : (([n2] : List Nat).filter
            fun h => decide (h ≤ t ∧ t - h < window)).length = 0 := by
          simp only [List.filter_cons, List.filter_nil]
          rw [decide_eq_false hc]
          rfl
        have := h4 t
        unfold windowCount at this
        omega

theorem Inv_runHist {steps : List Step} :
    ∀ {st : RLState} {hist : List Nat}, Inv st hist →
      Inv (runHist st hist steps).1 (runHist st hist steps).2 := by
  induction steps with
  | nil => intro st hist h; exact h
  | cons s rest ih =>
    intro st hist h
    exact ih (Inv_acquire s.draw (Inv_tick s.idle h))

theorem acquireE_max (d : Nat) (st : RLState) :
    (acquireE d st).1.max_requests = st.max_requests := by
  simp only [acquireE]
  split <;> rfl

theorem runHist_max {steps : List Step} :
    ∀ {st : RLState} {hist : List Nat},
      (runHist st hist steps).1.max_requests = st.max_requests := by
  induction steps with
  | nil => intro st hist; rfl
  | cons s rest ih =>
    intro st hist
    rw [runHist, ih]
    exact acquireE_max s.draw (tick s.idle st)

end RateLimiter

namespace LinkScraper

end LinkScraper

namespace LinkScraper

/-! ### Dedup lemmas -/

theorem setInsert_nodup {acc : List String} {x : String} (h : acc.Nodup) :
    (setInsert acc x).Nodup := by
  unfold setInsert
  by_cases hx : x ∈ acc
  · simpa [hx]
  · simp [hx, List.nodup_append, h]

theorem setUpdate_nodup : ∀ (xs acc : List String),
    acc.Nodup → (setUpdate acc xs).Nodup := by
  intro xs
  induction xs with
  | nil => intro acc h; exact h
  | cons x rest ih =>
    intro acc h
    exact ih _ (setInsert_nodup h)

theorem searchFold_nodup : ∀ (pages : List (List String × List String))
    (acc : List String), acc.Nodup →
    (pages.foldl (fun acc p => setUpdate acc (searchFilterPage p.1 p.2)) acc).Nodup := by
  intro pages
  induction pages with
  | nil => intro acc h; exact h
  | cons p ps ih =>
    intro acc h
    exact ih _ (setUpdate_nodup _ _ h)

theorem connStep_inv (card : ConnCard) {st : List String × List ConnEntry}
    (h : ConnInv st) : ConnInv (connStep st card) := by
  obtain ⟨h1, h2, h3⟩ := h
  unfold connStep
  rcases card.url with - | u
  · exact ⟨h1, h2, h3⟩
  · show ConnInv
      (if u.data ≠ [] ∧ u ∉ st.1 then
        (st.1 ++ [u],
         st.2 ++ [⟨card.name, card.occupation, u, _clean_profile_url u⟩])
       else st)
    by_cases hcond : u.data ≠ [] ∧ u ∉ st.1
    · rw [if_pos hcond]
      refine ⟨?_, ?_, ?_⟩
      · show st.1 ++ [u] = (st.2 ++ [_]).map _
        rw [List.map_append, h1]
        rfl
      · show (st.1 ++ [u]).Nodup
        simp [List.nodup_append, h2, hcond.2]
      · intro e he
        rcases List.mem_append.mp he with he | he
        · exact h3 e he
        · rcases List.mem_singleton.mp he with rfl
          rfl
    · rw [if_neg hcond]
      exact ⟨h1, h2, h3⟩

theorem processCards_inv : ∀ (cards : List ConnCard)
    (st : List String × List ConnEntry), ConnInv st →
    ConnInv (processCards cards st) := by
  intro cards
  induction cards with
  | nil => intro st h; exact h
  | cons card rest ih =>
    intro st h
    exact ih (connStep st card) (connStep_inv card h)

theorem connLoop_sound : ∀ (rounds : List (List ConnCard)) (maxR : Option Nat)
    (st : List String × List ConnEntry), ConnInv st →
    ((connLoop maxR rounds st).map (fun e => e.rawUrl)).Nodup ∧
    (∀ e ∈ connLoop maxR rounds st, e.url = _clean_profile_url e.rawUrl) := by
  intro rounds
  induction rounds with
  | nil =>
    intro maxR st h
    obtain ⟨h1, h2, h3⟩ := h
    exact ⟨h1 ▸ h2, h3⟩
  | cons r rs ih =>
    intro maxR st h
    have h' := processCards_inv r st h
    by_cases hcap : capReached maxR (processCards r st).2.length
    · obtain ⟨h1, h2, h3⟩ := h'
      have hnd : ((processCards r st).2.map (fun e => e.rawUrl)).Nodup := h1 ▸ h2
      constructor
      · rw [connLoop, if_pos hcap]
        rw [List.map_take]
        exact hnd.sublist (List.take_sublist _ _)
      · intro e he
        rw [connLoop, if_pos hcap] at he
        exact h3 e (List.mem_of_mem_take he)
    · constructor
      · rw [connLoop, if_neg hcap]
        exact (ih maxR _ h').1
      · rw [connLoop, if_neg hcap]
        exact (ih maxR _ h').2

end LinkScraper

namespace Education

/-! ### Education-loop lemmas for the whole-method exception handling -/

theorem eduLoop_ok : ∀ (items : List EduItem) (acc : List EduEntry),
    (∀ it ∈ items, ∃ e, processEduItem it = .ok e) →
    eduLoop items acc = acc ++ eduOkMap items := by
  intro items
  induction items with
  | nil => intro acc h; simp [eduLoop, eduOkMap]
  | cons it rest ih =>
    intro acc h
    obtain ⟨e, hok⟩ := h it (List.mem_cons_self _ _)
    rw [eduLoop, hok]
    show eduLoop rest (acc ++ [e]) = acc ++ eduOkMap (it :: rest)
    rw [ih _ (fun x hx => h x (List.mem_cons_of_mem _ hx))]
    simp [eduOkMap, hok, Except.toOption]

theorem eduLoop_fault : ∀ (items : List EduItem) (acc : List EduEntry)
    (it : EduItem) (err : String),
    it ∈ items → processEduItem it = .error err → eduLoop items acc = [] := by
  intro items
  induction items with
  | nil => intro acc it err hmem; cases hmem
  | cons hd rest ih =>
    intro acc it err hmem herr
    cases hok : processEduItem hd with
    | error e => rw [eduLoop, hok]
    | ok e =>
      rw [eduLoop, hok]
      show eduLoop rest (acc ++ [e]) = []
      rcases List.mem_cons.mp hmem with rfl | hmem2
      · rw [hok] at herr; cases herr
      · exact ih _ it err hmem2 herr

end Education

namespace DateUtils

/-- The source's format loop equals first-success over the format list. -/
theorem tryFmts_eq_findSome (fs : List Fmt) (s : List Char) :
    tryFmts fs s = fs.findSome? (fun f => strptimeFmt f s) := by
  induction fs with
  | nil => rfl
  | cons f rest ih =>
    rw [tryFmts]
    cases h : strptimeFmt f s with
    | some r => simp [List.findSome?_cons, h]
    | none => simp [List.findSome?_cons, h, ih]

end DateUtils

/-! ## Claim theorems -/

/-- C1: across any sequence of acquire() calls of the Traffic Shaper
started fresh with daily maximum maxR, the number of recorded requests
inside any rolling 24-hour window never exceeds maxR; and when the
in-window count has reached the maximum, acquire() blocks until the
oldest timestamp exits the window (the recorded time and new clock are
exactly oldest + 24h). -/
theorem claim_C1 :
    (∀ (maxR d0 t0 : Nat) (steps : List RateLimiter.Step) (t : Nat),
      RateLimiter.windowCount
        (RateLimiter.runHist (RateLimiter.initState maxR d0 t0) [] steps).2 t ≤ maxR) ∧
    (∀ (d : Nat) (st : RateLimiter.RLState),
      st.max_requests ≤ (RateLimiter.cleanOld st.now st.requests).length →
      RateLimiter.cleanOld st.now st.requests ≠ [] →
      (RateLimiter.acquireE d st).2 =
        some (RateLimiter.listMin (RateLimiter.cleanOld st.now st.requests) +
          RateLimiter.window) ∧
      (RateLimiter.acquireE d st).1.now =
        RateLimiter.listMin (RateLimiter.cleanOld st.now st.requests) +
          RateLimiter.window) := by
  constructor
  · intro maxR d0 t0 steps t
    have hInv := @RateLimiter.Inv_runHist steps (RateLimiter.initState maxR d0 t0) []
      (RateLimiter.Inv_init maxR d0 t0)
    have hmax := @RateLimiter.runHist_max steps (RateLimiter.initState maxR d0 t0) []
    have h4 := hInv.2.2.2 t
    rw [hmax] at h4
    exact h4
  · intro d st hc hne
    have hexc : ¬ (st.max_requests ≤ (RateLimiter.cleanOld st.now st.requests).length ∧
        RateLimiter.cleanOld st.now st.requests = []) := fun h => hne h.2
    have hw := RateLimiter.afterWait_wait hc rfl hne
    constructor
    · simp only [RateLimiter.acquireE, if_neg hexc, hw]
    · simp only [RateLimiter.acquireE, if_neg hexc, hw]

/-- Witness for C1: a limiter with quota 1 and one in-window request at
time 100 records its next request exactly when that timestamp exits the
24-hour window (100 + 86400 = 86500). -/
theorem claim_C1_witness :
    (RateLimiter.acquireE 3 ⟨1, [100], 3, 1, 100, 100, none⟩).2 =
      some (RateLimiter.listMin (RateLimiter.cleanOld 100 [100]) +
        RateLimiter.window) :=
  (claim_C1.2 3 ⟨1, [100], 3, 1, 100, 100, none⟩ (by decide) (by decide)).1

/-- C2: the experience extractor maps the given five-span item to the
record of the claim (title, company, duration, normalized from-date,
null to-date for Present, location before the middle dot, trailing
description). -/
theorem claim_C2 :
    Extractor.extract_experience
      (.ok [["Software Engineer", "Acme Corp", "Jan 2020 - Present · 4 yrs",
             "San Francisco, CA · Remote", "Built things."]]) =
    [{ position_title := some "Software Engineer",
       institution_name := some "Acme Corp",
       duration := some "Jan 2020 - Present · 4 yrs",
       from_date := some "2020-01-01",
       to_date := none,
       location := some "San Francisco, CA",
       description := some "Built things." }] := by decide

/-- C3: normalize returns none for None, for the empty string, for
"present" in any letter case, and for any string no format matches; on
any other input it returns the first successful parse of the ordered
format list on the trimmed input, reformatted as YYYY-MM-DD; the
function is total (never raises).  Representative dates of each of the
five formats are evaluated. -/
theorem claim_C3 :
    DateUtils.normalize none = none ∧
    DateUtils.normalize (some "") = none ∧
    (∀ s : String, lowerStr s = "present" → DateUtils.normalize (some s) = none) ∧
    (∀ s : String, s.data ≠ [] → lowerStr s ≠ "present" →
      DateUtils.normalize (some s) =
        (DateUtils.formatsList.findSome?
          (fun f => DateUtils.strptimeFmt f (pyStrip s.data))).map
          DateUtils.formatYMD) ∧
    (∀ s : String, DateUtils.tryFmts DateUtils.formatsList (pyStrip s.data) = none →
      DateUtils.normalize (some s) = none) ∧
    (DateUtils.normalize (some "Aug 2023") = some "2023-08-01" ∧
     DateUtils.normalize (some "August 2023") = some "2023-08-01" ∧
     DateUtils.normalize (some "2023") = some "2023-01-01" ∧
     DateUtils.normalize (some "Aug 1, 2023") = some "2023-08-01" ∧
     DateUtils.normalize (some "August 31, 2023") = some "2023-08-31" ∧
     DateUtils.normalize (some "Present") = none ∧
     DateUtils.normalize (some "present") = none ∧
     DateUtils.normalize (some "Feb 30, 2023") = none ∧
     DateUtils.normalize (some "not a date") = none) := by
  refine ⟨rfl, by decide, ?_, ?_, ?_, by decide⟩
  · intro s hp
    by_cases hd : s.data = []
    · simp [DateUtils.normalize, hd]
    · simp [DateUtils.normalize, hd, hp]
  · intro s hd hp
    simp only [DateUtils.normalize, if_neg hd, if_neg hp]
    rw [← DateUtils.tryFmts_eq_findSome]
    cases h : DateUtils.tryFmts DateUtils.formatsList (pyStrip s.data) <;> simp [h]
  · intro s h
    by_cases hd : s.data = []
    · simp [DateUtils.normalize, hd]
    · by_cases hp : lowerStr s = "present"
      · simp [DateUtils.normalize, hd, hp]
      · simp [DateUtils.normalize, hd, hp, h]

/-- Witness for C3: the case-insensitive present clause applied at the
concrete input PRESENT. -/
theorem claim_C3_witness : DateUtils.normalize (some "PRESENT") = none :=
  claim_C3.2.2.1 "PRESENT" (by decide)

/-- C5 (amended): search-results mode deduplicates canonical URLs (the
set holds cleaned links), so its result has no duplicates; connections
mode deduplicates by EXACT RAW url before cleaning, so no two entries
come from the same raw URL and every entry url is the cleaning of its
raw URL - but raw URLs differing only in query or fragment are not
collapsed. -/
theorem claim_C5 :
    (∀ pages : List (List String × List String),
      (LinkScraper.get_profile_links_from_search pages).Nodup) ∧
    (∀ (rounds : List (List LinkScraper.ConnCard)) (maxR : Option Nat),
      ((LinkScraper.get_profile_links_from_connections rounds maxR).map
        (fun e => e.rawUrl)).Nodup ∧
      ∀ e ∈ LinkScraper.get_profile_links_from_connections rounds maxR,
        e.url = LinkScraper._clean_profile_url e.rawUrl) := by
  constructor
  · intro pages
    exact LinkScraper.searchFold_nodup pages [] List.nodup_nil
  · intro rounds maxR
    exact LinkScraper.connLoop_sound rounds maxR ([], [])
      ⟨rfl, List.nodup_nil, fun e he => absurd he (List.not_mem_nil e)⟩

/-- Counterexample for C5 as stated: two connection cards whose raw
URLs differ only in the query string both survive the raw-URL dedup, so
the connections result holds two entries with the same canonical URL. -/
theorem claim_C5_counterexample :
    ((LinkScraper.get_profile_links_from_connections
        [[⟨some "A", none, some "https://www.linkedin.com/in/a?x=1"⟩,
          ⟨some "B", none, some "https://www.linkedin.com/in/a?x=2"⟩]] none).map
      (fun e => e.url)) =
      ["https://www.linkedin.com/in/a", "https://www.linkedin.com/in/a"] ∧
    ¬ ((LinkScraper.get_profile_links_from_connections
        [[⟨some "A", none, some "https://www.linkedin.com/in/a?x=1"⟩,
          ⟨some "B", none, some "https://www.linkedin.com/in/a?x=2"⟩]] none).map
      (fun e => e.url)).Nodup := by
  constructor <;> decide

/-- Witness for C5: a one-card run, with the membership hypothesis of
the per-entry clause discharged at the concrete resulting entry. -/
theorem claim_C5_witness :
    ((LinkScraper.get_profile_links_from_connections
        [[⟨some "A", none, some "https://www.linkedin.com/in/a?x=1"⟩]] none).map
      (fun e => e.rawUrl)).Nodup ∧
    (⟨some "A", none, "https://www.linkedin.com/in/a?x=1",
      "https://www.linkedin.com/in/a"⟩ : LinkScraper.ConnEntry).url =
      LinkScraper._clean_profile_url "https://www.linkedin.com/in/a?x=1" :=
  ⟨(claim_C5.2 [[⟨some "A", none, some "https://www.linkedin.com/in/a?x=1"⟩]] none).1,
   (claim_C5.2 [[⟨some "A", none, some "https://www.linkedin.com/in/a?x=1"⟩]] none).2
     ⟨some "A", none, "https://www.linkedin.com/in/a?x=1",
      "https://www.linkedin.com/in/a"⟩ (by decide)⟩

/-- C6 (amended): login never raises at all - every failure inside the
body, authentication AND infrastructure alike, is caught by the
method-level handler and surfaces as the boolean False. -/
theorem claim_C6 :
    ∀ (env : Session.LoginEnv) (st : Session.SessionSt),
      ∃ b : Bool, (Session.login env st).2 = Session.PyResult.returns b := by
  intro env st
  rcases hb : Session.loginBody env st with ⟨st2, r⟩
  cases r with
  | ok b =>
    refine ⟨b, ?_⟩
    unfold Session.login
    rw [hb]
  | error e =>
    refine ⟨false, ?_⟩
    unfold Session.login
    rw [hb]

/-- Counterexample for C6 as stated: a browser-level (infrastructure)
failure of the very first navigation does NOT propagate out of login as
an exception; login returns False. -/
theorem claim_C6_counterexample :
    (Session.login
      ⟨.error "browser disconnected", .ok "", .ok (), .ok (), .ok (), .ok (),
       .ok (), .ok false, .ok ()⟩ ⟨false⟩).2 = .returns false ∧
    (⟨.error "browser disconnected", .ok "", .ok (), .ok (), .ok (), .ok (),
      .ok (), .ok false, .ok ()⟩ : Session.LoginEnv).navFeed =
      .error "browser disconnected" := by
  exact ⟨by decide, rfl⟩

/-- C7: on malformed or empty panel fragments every extractor method
returns its degraded default - empty string for name, title, location
and about; empty list for experience and education; and an entry whose
spans match no rule keeps every field null - and, being total
functions of the modelled lookup outcomes, they never raise. -/
theorem claim_C7 :
    (Extractor.extract_name (.error ()) = "") ∧
    (Extractor.extract_name (.ok none) = "") ∧
    (Extractor.extract_name (.ok (some none)) = "") ∧
    (Extractor.extract_title (.error ()) = "") ∧
    (Extractor.extract_location (.error ()) = "") ∧
    (Extractor.extract_about (.error ()) = "") ∧
    (Extractor.extract_about (.ok none) = "") ∧
    (Extractor.extract_experience (.error ()) = []) ∧
    (Extractor.extract_experience (.ok []) = []) ∧
    (Extractor.extract_experience (.ok [[]]) = [Extractor.emptyExperience]) ∧
    (Education.extract_education [] = []) ∧
    (Education.extract_education [⟨none⟩] = []) := by decide

/-- C8 (amended): the education loop catches faults at the whole-method
level, not per item: when every item processes cleanly the entries map
over in order, but a fault on ANY item makes extract_education return
the empty list, discarding the entries already extracted and those
after the fault. -/
theorem claim_C8 :
    (∀ items : List Education.EduItem,
      (∀ it ∈ items, ∃ e, Education.processEduItem it = .ok e) →
      Education.extract_education items = Education.eduOkMap items) ∧
    (∀ (items : List Education.EduItem) (it : Education.EduItem) (err : String),
      it ∈ items → Education.processEduItem it = .error err →
      Education.extract_education items = []) := by
  constructor
  · intro items h
    have heq := Education.eduLoop_ok items [] h
    simpa [Education.extract_education] using heq
  · intro items it err hmem herr
    exact Education.eduLoop_fault items [] it err hmem herr

/-- Counterexample for C8 as stated: a clean first education item
followed by a faulting one (entity selector finds nothing) yields the
empty list - the first entry, although extractable on its own, is
discarded. -/
theorem claim_C8_counterexample :
    Education.extract_education
      [⟨some ⟨2, some (some "https://www.linkedin.com/school/x"),
        [⟨some [some (some "MIT"), some (some "BSc"), some (some "2019 - 2023")],
          none⟩]⟩⟩,
       ⟨none⟩] = [] ∧
    Education.processEduItem
      ⟨some ⟨2, some (some "https://www.linkedin.com/school/x"),
        [⟨some [some (some "MIT"), some (some "BSc"), some (some "2019 - 2023")],
          none⟩]⟩⟩ =
      .ok ⟨some "2019-01-01", some "2023-01-01", "", some "BSc", "MIT",
           some "https://www.linkedin.com/school/x"⟩ :=
  ⟨by decide, rfl⟩

/-- Witness for C8: the fault clause applied to the one-item list whose
item misses the entity node. -/
theorem claim_C8_witness : Education.extract_education [⟨none⟩] = [] :=
  claim_C8.2 [⟨none⟩] ⟨none⟩ "AttributeError: NoneType.query_selector_all"
    (List.mem_singleton.mpr rfl) rfl

/-- C9 (amended): after every acquire() that completes its normal path,
the limiter writes {request timestamps, burst counter, last-burst time}
- exactly the fields of the state dict - to the state file; the burst
target size is NOT part of the persisted record. -/
theorem claim_C9 :
    ∀ (d : Nat) (st : RateLimiter.RLState),
      ¬ (st.max_requests ≤ (RateLimiter.cleanOld st.now st.requests).length ∧
         RateLimiter.cleanOld st.now st.requests = []) →
      (RateLimiter.acquireE d st).1.savedFile =
        some ⟨(RateLimiter.acquireE d st).1.requests,
              (RateLimiter.acquireE d st).1.last_burst_time,
              (RateLimiter.acquireE d st).1.current_burst⟩ := by
  intro d st h
  simp only [RateLimiter.acquireE, if_neg h]

/-- Counterexample for C9 as stated: two limiter states that differ
only in the burst target size produce byte-identical saved records
after acquire(), while their live burst targets still differ - the
persisted record cannot include the burst target. -/
theorem claim_C9_counterexample :
    (RateLimiter.acquire 3 ⟨10, [100], 4, 1, 100, 100, none⟩).savedFile =
      (RateLimiter.acquire 3 ⟨10, [100], 5, 1, 100, 100, none⟩).savedFile ∧
    (RateLimiter.acquire 3 ⟨10, [100], 4, 1, 100, 100, none⟩).burst_size ≠
      (RateLimiter.acquire 3 ⟨10, [100], 5, 1, 100, 100, none⟩).burst_size := by
  constructor <;> decide

/-- Witness for C9: a fresh limiter with quota 5 takes the normal path
and its state file afterwards holds exactly the three fields. -/
theorem claim_C9_witness :
    (RateLimiter.acquireE 3 ⟨5, [], 3, 0, 0, 0, none⟩).1.savedFile =
      some ⟨(RateLimiter.acquireE 3 ⟨5, [], 3, 0, 0, 0, none⟩).1.requests,
            (RateLimiter.acquireE 3 ⟨5, [], 3, 0, 0, 0, none⟩).1.last_burst_time,
            (RateLimiter.acquireE 3 ⟨5, [], 3, 0, 0, 0, none⟩).1.current_burst⟩ :=
  claim_C9 3 ⟨5, [], 3, 0, 0, 0, none⟩ (by decide)

/-- C10: whenever close() returns normally, the logged-in flag has been
cleared, so is_logged_in() afterwards returns False regardless of the
prior session state. -/
theorem claim_C10 :
    ∀ (env : Session.CloseEnv) (st st2 : Session.SessionSt),
      Session.close env st = (st2, .returns ()) →
      Session.is_logged_in st2 = false := by
  intro env st st2 h
  cases hcb : env.closeBrowser with
  | ok u =>
    rw [Session.close, hcb] at h
    simp only [Prod.mk.injEq] at h
    rw [← h.1]
    rfl
  | error e =>
    rw [Session.close, hcb] at h
    simp at h

/-- Witness for C10: closing a logged-in session through a successful
close_browser call leaves is_logged_in false. -/
theorem claim_C10_witness :
    Session.is_logged_in (Session.close ⟨.ok ()⟩ ⟨true⟩).1 = false :=
  claim_C10 ⟨.ok ()⟩ ⟨true⟩ (Session.close ⟨.ok ()⟩ ⟨true⟩).1 (by decide)

end LinkedinScraper

